import Mathlib

/-!
Verification development for the CSV_Plotter application (`src/src/App.js`).

The application's data-transformation core is shallowly embedded here:

* a CSV cell (`Value`) is `null`, a string, or a number; JavaScript numbers
  are modelled as exact rationals (`ℚ`), so the floating-point literals
  `0.1`, `0.8`, `0.5` of the source become the exact rationals they denote;
* a `Row` is the ordered list of (column name, cell) pairs of a parsed
  object, and `rowGet` models JavaScript property lookup (`none` plays the
  role of `undefined`);
* the JavaScript built-ins the source applies to cells are modelled by
  executable functions: `jsNumber` models `Number(·)` on the decimal
  literals that occur in CSV data (`null`, and whitespace-only strings
  coerce to `0`; non-numeric text is `NaN`, i.e. `none`; exponent and hex
  forms are not needed by the data handled here), `jsToString` models
  `String(·)` (on the non-integer rationals that JavaScript would print in
  decimal float notation it falls back to a fraction rendering, which no
  verified statement depends on), and `dateParse` models ECMAScript
  `Date.parse` on its specified ISO 8601 date-only forms
  `YYYY`, `YYYY-MM` and `YYYY-MM-DD` (implementation-defined extra formats
  are treated as unparseable, and time-of-day suffixes are not modelled:
  no verified statement depends on them).

Each definition below names the function of `App.js` it embeds.
-/

/-- A CSV cell as produced by the parsing collaborator with
`dynamicTyping`: `null`, a trimmed-or-raw string, or a number
(JavaScript numbers modelled as exact rationals). -/
inductive Value where
  | vnull : Value
  | vstr (s : String) : Value
  | vnum (q : ℚ) : Value
deriving DecidableEq

/-- A parsed CSV row: the ordered (column name, cell) pairs of the
JavaScript object, keys distinct. -/
abbrev Row := List (String × Value)

/-- JavaScript property lookup `row[key]`: `none` models `undefined`. -/
def rowGet (r : Row) (key : String) : Option Value :=
  (r.find? (fun p => p.1 = key)).map (fun p => p.2)

/-- The keys of a row, in object order (`Object.keys(row)`). -/
def rowKeys (r : Row) : List String := r.map (fun p => p.1)

/-- Leading- and trailing-whitespace removal on a character list. -/
def trimChars (cs : List Char) : List Char :=
  ((cs.dropWhile Char.isWhitespace).reverse.dropWhile Char.isWhitespace).reverse

/-- JavaScript `String.prototype.trim` (whitespace per `Char.isWhitespace`). -/
def jsTrim (s : String) : String := String.mk (trimChars s.data)

/-- `App.js` lines 33–39: trim every string cell of a row, leave other
cells unchanged. -/
def trimRow (r : Row) : Row :=
  r.map (fun p =>
    match p.2 with
    | Value.vstr s => (p.1, Value.vstr (jsTrim s))
    | v => (p.1, v))

/-- Digits-to-number accumulator used by the `Number(·)` model. -/
def natOfDigits (cs : List Char) : ℕ :=
  cs.foldl (fun n c => 10 * n + (c.toNat - 48)) 0

/-- Parse an unsigned decimal literal (`123`, `12.5`, `.5`, `7.`),
returning its exact rational value. -/
def parseUnsigned (cs : List Char) : Option ℚ :=
  match cs.span Char.isDigit with
  | (ds, []) =>
      if ds.isEmpty then none else some (natOfDigits ds : ℚ)
  | (ds, c :: fs) =>
      if c = '.' && fs.all Char.isDigit && !(ds.isEmpty && fs.isEmpty) then
        some ((natOfDigits ds : ℚ) + (natOfDigits fs : ℚ) / ((10 : ℚ) ^ fs.length))
      else none

/-- JavaScript `Number(s)` on a non-empty trimmed string: an optionally
signed decimal literal; `none` models `NaN`. -/
def parseNumber (s : String) : Option ℚ :=
  match s.data with
  | '-' :: rest => (parseUnsigned rest).map (fun q => -q)
  | '+' :: rest => parseUnsigned rest
  | cs => parseUnsigned cs

/-- JavaScript `Number(v)` on a cell: `Number(null) = 0`, a number is
itself, a string is trimmed and parsed with the empty string giving `0`;
`none` models `NaN`. -/
def jsNumber : Value → Option ℚ
  | Value.vnull => some 0
  | Value.vnum q => some q
  | Value.vstr s =>
      let t := jsTrim s
      if t = "" then some 0 else parseNumber t

/-- JavaScript `Number(v)` where `v` may be `undefined`
(`Number(undefined)` is `NaN`). -/
def jsNumberOpt : Option Value → Option ℚ
  | none => none
  | some v => jsNumber v

/-- Rendering of a rational in the `String(·)` model: integers print as
JavaScript prints them; non-integers (never inspected by a verified
statement) fall back to a fraction rendering. -/
def ratToString (q : ℚ) : String :=
  if q.den = 1 then toString q.num
  else toString q.num ++ "/" ++ toString q.den

/-- JavaScript `String(v)` on a cell. -/
def jsToString : Value → String
  | Value.vnull => "null"
  | Value.vstr s => s
  | Value.vnum q => ratToString q

/-- JavaScript truthiness test on a cell: `null`, the number `0` and the
empty string are falsy. -/
def jsFalsy : Value → Bool
  | Value.vnull => true
  | Value.vstr s => s = ""
  | Value.vnum q => q = 0

/-- A calendar date recognised by the `Date.parse` model (midnight,
date-only). -/
structure JSDate where
  year : ℕ
  month : ℕ
  day : ℕ
deriving DecidableEq

/-- Split a character list at a separator character. -/
def splitCharsOn (sep : Char) : List Char → List (List Char)
  | [] => [[]]
  | c :: rest =>
      let r := splitCharsOn sep rest
      if c = sep then [] :: r
      else
        match r with
        | [] => [[c]]
        | h :: t => (c :: h) :: t

/-- ECMAScript `Date.parse` on the ISO 8601 date-only forms `YYYY`,
`YYYY-MM` and `YYYY-MM-DD` (4-digit year, 2-digit month `01`–`12`,
2-digit day `01`–`31`); every other string is unparseable (`none`,
modelling `NaN`). -/
def dateParse (s : String) : Option JSDate :=
  let isYear := fun (t : List Char) => t.length == 4 && t.all Char.isDigit
  let isTwo := fun (t : List Char) => t.length == 2 && t.all Char.isDigit
  match splitCharsOn '-' s.data with
  | [y] =>
      if isYear y then some ⟨natOfDigits y, 1, 1⟩ else none
  | [y, m] =>
      if isYear y && isTwo m then
        let mv := natOfDigits m
        if 1 ≤ mv ∧ mv ≤ 12 then some ⟨natOfDigits y, mv, 1⟩ else none
      else none
  | [y, m, d] =>
      if isYear y && isTwo m && isTwo d then
        let mv := natOfDigits m
        let dv := natOfDigits d
        if 1 ≤ mv ∧ mv ≤ 12 ∧ 1 ≤ dv ∧ dv ≤ 31 then
          some ⟨natOfDigits y, mv, dv⟩
        else none
      else none
  | _ => none

/-- `en-US` short month names, for the locale-rendering models. -/
def monthShort : List String :=
  ["Jan", "Feb", "Mar", "Apr", "May", "Jun",
   "Jul", "Aug", "Sep", "Oct", "Nov", "Dec"]

/-- `toLocaleDateString('en-US', {month:'short', day:'numeric',
year:'2-digit'})` on a midnight date, as used by `formatXAxisTick`. -/
def formatDateTick (d : JSDate) : String :=
  monthShort.getD (d.month - 1) "Jan" ++ " " ++ toString d.day ++ ", " ++
    (if d.year % 100 < 10 then "0" else "") ++ toString (d.year % 100)

/-- `App.js` lines 265–305, `formatXAxisTick`: falsy values render as the
em-dash placeholder; a string parsing as a (midnight) date renders
date-only; other strings longer than 8 characters are truncated to 6
characters plus an ellipsis; anything else renders as `String(value)`.
Date objects never occur among parsed CSV cells, and date-with-time
strings are outside the `dateParse` model, so the midnight branch is the
only date branch. -/
def formatXAxisTick (value : Value) : String :=
  if jsFalsy value then "—"
  else
    match value with
    | Value.vstr s =>
        match dateParse s with
        | some d => formatDateTick d
        | none =>
            if 8 < s.length then String.mk (s.data.take 6) ++ "..." else s
    | v => jsToString v

example : jsNumber (Value.vstr "100") = some 100 := by decide
example : jsNumber (Value.vstr "  ") = some 0 := by decide
example : jsNumber (Value.vstr "abc") = none := by decide
example : jsNumber (Value.vstr "-25") = some (-25) := by decide
example : jsNumber Value.vnull = some 0 := by decide
example : jsToString (Value.vnum 2020) = "2020" := by decide
example : (dateParse "2020").isSome = true := by decide
example : (dateParse "2020-05-17").isSome = true := by decide
example : dateParse "apple" = none := by decide
example : formatXAxisTick (Value.vstr "abcdefghij") = "abcdef..." := by decide

/-- `Math.ceil(a / b)` on JavaScript numbers, for an integer `a` and a
positive integer literal `b` (the source divides by `4` and `2`). -/
def jsCeilDiv (a b : ℤ) : ℤ := -(Int.fdiv (-a) b)

/-- The zoom window held in the `zoomDomain` state hook: `start` and
`end` row indices (`end` is a Lean keyword, so the field is `endI`). -/
structure Zoom where
  start : ℤ
  endI : ℤ
deriving DecidableEq

/-- `App.js` lines 67–80, `handleZoomIn`: no change once the range is at
most 2; otherwise shrink both ends inward by `Math.ceil(range/4)`,
rejecting the move if it would make `start ≥ end`. -/
def handleZoomIn (z : Zoom) : Zoom :=
  let range := z.endI - z.start
  if range ≤ 2 then z
  else
    let increment := jsCeilDiv range 4
    let newStart := z.start + increment
    let newEnd := z.endI - increment
    if newEnd ≤ newStart then z
    else ⟨newStart, newEnd⟩

/-- `App.js` lines 83–94, `handleZoomOut`: expand both ends outward by
`Math.ceil(range/2)`, clamping to `[0, dataLen − 1]`. -/
def handleZoomOut (dataLen : ℤ) (z : Zoom) : Zoom :=
  let range := z.endI - z.start
  let increment := jsCeilDiv range 2
  ⟨max 0 (z.start - increment), min (dataLen - 1) (z.endI + increment)⟩

/-- `App.js` lines 96–98, `handleResetZoom`: the full range. -/
def handleResetZoom (dataLen : ℤ) : Zoom := ⟨0, dataLen - 1⟩

/-- The spec's ZoomWindow invariant, relative to a dataset of `dataLen`
rows: `0 ≤ start < end ≤ dataLen − 1`. -/
def ZoomInv (dataLen : ℤ) (z : Zoom) : Prop :=
  0 ≤ z.start ∧ z.start < z.endI ∧ z.endI ≤ dataLen - 1

instance (dataLen : ℤ) (z : Zoom) : Decidable (ZoomInv dataLen z) := by
  unfold ZoomInv; infer_instance

/-- `App.js` lines 124–140, `sampleData`: a sequence at or below
`maxPoints` is returned unchanged; otherwise the `for` loop takes the
rows at indices `0, step, 2·step, …` (the `j`-th iteration reads index
`j·step`, and there are `⌈length/step⌉` iterations), and the final row is
pushed afterwards unless the loop's last index already was
`length − 1` (the source compares the two row objects with `!==`, which
on the distinct row objects of a parse result is exactly this index
comparison). -/
def sampleData [Inhabited α] (data : List α) (maxPoints : ℕ) : List α :=
  if data.length ≤ maxPoints then data
  else
    let step := (data.length + maxPoints - 1) / maxPoints
    let count := (data.length + step - 1) / step
    let sampled := (List.range count).map (fun j => data.getD (j * step) default)
    if (count - 1) * step = data.length - 1 then sampled
    else sampled ++ [data.getD (data.length - 1) default]

example : sampleData [0, 1, 2, 3, 4] 2 = [0, 3, 4] := by decide
example : sampleData [0, 1, 2] 3 = [0, 1, 2] := by decide

/-- The non-`NaN` `Number(·)` coercions of a column over a row slice:
the list `data.map(d => Number(d[column])).filter(v => !isNaN(v))` from
`getDataRange`. -/
def columnNumbers (data : List Row) (column : String) : List ℚ :=
  data.filterMap (fun d => jsNumberOpt (rowGet d column))

/-- `App.js` lines 101–108, `getDataRange`: `[0, 100]` when no coercion
is numeric, else `[min − padding, max + padding]` with
`padding = (max − min) * 0.1`; `Math.min`/`Math.max` over the non-empty
list are folds over its head and tail. -/
def getDataRange (data : List Row) (column : String) : ℚ × ℚ :=
  match columnNumbers data column with
  | [] => (0, 100)
  | v :: vs =>
      let mn := vs.foldl min v
      let mx := vs.foldl max v
      let padding := (mx - mn) * (1/10)
      (mn - padding, mx + padding)

/-- The chart series palette of `App.js` line 8. -/
def COLORS : List String :=
  ["#8884d8", "#82ca9d", "#ffc658", "#ff8042", "#8dd1e1"]

/-- One entry of the pie chart's aggregated data. -/
structure PieDatum where
  name : String
  value : ℚ
  color : String
deriving DecidableEq

/-- The per-column aggregation of the pie branch: `chartData.reduce`
summing `Number(row[col])` with `NaN` contributing `0`. -/
def pieValueSum (chartData : List Row) (col : String) : ℚ :=
  chartData.foldl (fun acc row => acc + ((jsNumberOpt (rowGet row col)).getD 0)) 0

/-- `App.js` lines 476–486, the pie branch of `renderChart`: one datum
per selected column with the column's sum and palette colour, keeping
only data with a strictly positive value. -/
def pieData (chartData : List Row) (selectedColumns : List String) : List PieDatum :=
  ((selectedColumns.enum.map (fun p =>
      { name := p.2
        value := pieValueSum chartData p.2
        color := COLORS.getD (p.1 % COLORS.length) "" : PieDatum })).filter
    (fun d => 0 < d.value))

/-- `App.js` line 489: the pie branch renders the
"no numeric data" message instead of a chart exactly when this holds. -/
def pieNoData (chartData : List Row) (selectedColumns : List String) : Bool :=
  (pieData chartData selectedColumns).isEmpty ||
    (pieData chartData selectedColumns).all (fun d => d.value == 0)

/-- The component state of `App` relevant to the verified claims
(`useState` hooks of `App.js` lines 11–17). -/
structure AppState where
  data : List Row
  headers : List String
  chartType : String
  selectedColumns : List String
  darkMode : Bool
  zoomDomain : Zoom
  xAxisStrategy : String
deriving DecidableEq

/-- The initial hook values of `App.js` lines 11–17; in particular
`zoomDomain` starts as `{start: 0, end: 10}`. -/
def initialState : AppState :=
  { data := []
    headers := []
    chartType := "line"
    selectedColumns := []
    darkMode := false
    zoomDomain := ⟨0, 10⟩
    xAxisStrategy := "auto" }

/-- `App.js` lines 31–51, the `complete` callback of `handleFileUpload`
as a state transition on the parse result's rows: `setData` always
publishes the trimmed rows; only when at least one row was parsed are
the headers (the first row's keys), the default column selection
(`headers[1]` when it exists) and the full-range zoom window updated. -/
def uploadComplete (s : AppState) (results : List Row) : AppState :=
  let cleanedData := results.map trimRow
  let s1 := { s with data := cleanedData }
  match results with
  | [] => s1
  | first :: _ =>
      let cols := rowKeys first
      { s1 with
        headers := cols
        selectedColumns :=
          match cols with
          | _ :: c2 :: _ => [c2]
          | _ => []
        zoomDomain := ⟨0, (cleanedData.length : ℤ) - 1⟩ }

example : handleZoomIn ⟨0, 5⟩ = ⟨2, 3⟩ := by decide
example : handleZoomOut 6 ⟨2, 3⟩ = ⟨1, 4⟩ := by decide

/-- `App.js` line 210: the X-column's cells with `null`/`undefined`
removed (`.filter(val => val != null)`). -/
def xValues (data : List Row) (columnName : String) : List Value :=
  data.filterMap (fun row =>
    match rowGet row columnName with
    | some v => if v = Value.vnull then none else some v
    | none => none)

/-- `App.js` line 215: a cell counts as a date when `Date.parse` of its
string coercion succeeds (`Date.parse` coerces its argument to a
string; `instanceof Date` never holds for parsed CSV cells). -/
def isDateValue (v : Value) : Bool := (dateParse (jsToString v)).isSome

/-- JavaScript `toFixed(2)`, rounding to two decimal places. -/
def toFixed2 (q : ℚ) : String :=
  let n := round (q * 100)
  let m := n.natAbs
  (if n < 0 then "-" else "") ++ toString (m / 100) ++ "." ++
    (if m % 100 < 10 then "0" else "") ++ toString (m % 100)

/-- `App.js` lines 206–262, `analyzeXAxisColumn`, as a function of the
dataset and headers it reads: produce the descriptive X-axis label.
The numeric block (lines 222–247) only returns from some of its
branches; when it falls through, control continues with the categorical
check, which the `Option String` intermediate models. `Math.min`/
`Math.max` over the non-empty numeric list are folds over head and
tail, `[...].sort((a,b) => a-b)` is an ascending sort, and
`Math.round` on the already-integer average difference (guarded by
`Number.isInteger`) is the identity. -/
def analyzeXAxisColumn (data : List Row) (headers : List String) : String :=
  if data.length = 0 ∨ headers.length = 0 then
    match headers with
    | [] => "X-Axis"
    | h :: _ => if h = "" then "X-Axis" else h
  else
    let columnName := headers.headD ""
    let values := xValues data columnName
    if values.length = 0 then columnName
    else
      let dateValues := values.filter isDateValue
      if ((dateValues.length : ℚ) > (values.length : ℚ) * (8/10)) then
        columnName ++ " (Timeline)"
      else
        let numericValues := values.filter (fun v => (jsNumber v).isSome)
        let numericBranch : Option String :=
          if ((numericValues.length : ℚ) > (values.length : ℚ) * (8/10)) then
            match numericValues.filterMap jsNumber with
            | [] => none
            | n :: ns =>
                let nums := n :: ns
                let mn := ns.foldl min n
                let mx := ns.foldl max n
                let range := mx - mn
                if range = 0 then
                  some (columnName ++ " (Constant: " ++ ratToString mn ++ ")")
                else if 1 < nums.length then
                  let sorted := nums.mergeSort (fun a b => decide (a ≤ b))
                  let differences := (sorted.zip sorted.tail).map (fun p => p.2 - p.1)
                  let avgDiff := differences.foldl (· + ·) 0 / (differences.length : ℚ)
                  if 0 < avgDiff ∧ avgDiff < 1 then
                    some (columnName ++ " (Range: " ++ toFixed2 mn ++ " - " ++
                      toFixed2 mx ++ ")")
                  else if avgDiff.den = 1 ∧ 0 < avgDiff then
                    some (columnName ++ " (Sequence: +" ++ ratToString avgDiff ++ ")")
                  else
                    some (columnName ++ " (Range: " ++ ratToString mn ++ " - " ++
                      ratToString mx ++ ")")
                else none
          else none
        match numericBranch with
        | some label => label
        | none =>
            let uniqueValues := values.dedup
            if ((uniqueValues.length : ℚ) < (values.length : ℚ) * (1/2) ∧
                1 < uniqueValues.length) then
              columnName ++ " (" ++ toString uniqueValues.length ++ " Categories)"
            else
              match values with
              | Value.vstr _ :: _ => columnName ++ " (Text)"
              | _ => columnName

/-! ### Example datasets -/

/-- The spec's example dataset:
`[{Year:"2020",Sales:"100"},{Year:"2021",Sales:"150"},{Year:"2022",Sales:"90"}]`. -/
def exRows : List Row :=
  [[("Year", Value.vstr "2020"), ("Sales", Value.vstr "100")],
   [("Year", Value.vstr "2021"), ("Sales", Value.vstr "150")],
   [("Year", Value.vstr "2022"), ("Sales", Value.vstr "90")]]

/-! ### Helper lemmas -/

theorem jsCeilDiv_four_bounds (a : ℤ) :
    a ≤ 4 * jsCeilDiv a 4 ∧ 4 * jsCeilDiv a 4 ≤ a + 3 := by
  unfold jsCeilDiv
  rw [Int.fdiv_eq_ediv _ (by norm_num)]
  omega

theorem jsCeilDiv_two_bounds (a : ℤ) :
    a ≤ 2 * jsCeilDiv a 2 ∧ 2 * jsCeilDiv a 2 ≤ a + 1 := by
  unfold jsCeilDiv
  rw [Int.fdiv_eq_ediv _ (by norm_num)]
  omega

/-- When the range exceeds 2, neither guard of `handleZoomIn` fires and
the window shrinks by exactly `Math.ceil(range/4)` on each side. -/
theorem handleZoomIn_of_big (z : Zoom) (h : 2 < z.endI - z.start) :
    handleZoomIn z =
      ⟨z.start + jsCeilDiv (z.endI - z.start) 4,
       z.endI - jsCeilDiv (z.endI - z.start) 4⟩ := by
  have hc := jsCeilDiv_four_bounds (z.endI - z.start)
  unfold handleZoomIn
  rw [if_neg (by omega), if_neg (by omega)]

/-- Below range 3, `handleZoomIn` is the identity. -/
theorem handleZoomIn_of_small (z : Zoom) (h : z.endI - z.start ≤ 2) :
    handleZoomIn z = z := by
  unfold handleZoomIn
  rw [if_pos h]

/-! ### Claim C1 -/

/-- Claim C1, counterexample: on a 6-row dataset with the full window
`[0, 5]` (range 5 > 2), zoom-in gives `[2, 3]` and zoom-out then gives
`[1, 4]`, which does not contain the original window, refuting the claim
that zoom-in followed by zoom-out always returns a containing window. -/
theorem c1_roundtrip_counterexample :
    handleZoomOut 6 (handleZoomIn ⟨0, 5⟩) = ⟨1, 4⟩ ∧
    ¬((handleZoomOut 6 (handleZoomIn ⟨0, 5⟩)).start ≤ 0 ∧
      5 ≤ (handleZoomOut 6 (handleZoomIn ⟨0, 5⟩)).endI) := by
  decide

/-- Claim C1 (amended): for every dataset length and window
`[start, end]` inside it with `end − start > 2`, zoom-in followed by
zoom-out returns a window within one index of containing the original
(`start' ≤ start + 1` and `end' ≥ end − 1`); and from any window,
repeated zoom-in reaches a window of range at most 2 that it no longer
changes. -/
theorem c1_zoom_roundtrip_amended :
    (∀ (dataLen : ℤ) (z : Zoom), 0 ≤ z.start → z.endI ≤ dataLen - 1 →
        2 < z.endI - z.start →
        (handleZoomOut dataLen (handleZoomIn z)).start ≤ z.start + 1 ∧
        z.endI - 1 ≤ (handleZoomOut dataLen (handleZoomIn z)).endI) ∧
    (∀ z : Zoom, ∃ n : ℕ,
        (handleZoomIn^[n] z).endI - (handleZoomIn^[n] z).start ≤ 2 ∧
        handleZoomIn (handleZoomIn^[n] z) = handleZoomIn^[n] z) := by
  constructor
  · intro dataLen z h0 hend hr
    have hc := jsCeilDiv_four_bounds (z.endI - z.start)
    rw [handleZoomIn_of_big z hr]
    unfold handleZoomOut
    have hc2 := jsCeilDiv_two_bounds
      (z.endI - jsCeilDiv (z.endI - z.start) 4 -
        (z.start + jsCeilDiv (z.endI - z.start) 4))
    dsimp only
    omega
  · intro z
    suffices h : ∀ (m : ℕ) (w : Zoom), (w.endI - w.start).toNat ≤ m →
        ∃ n : ℕ, (handleZoomIn^[n] w).endI - (handleZoomIn^[n] w).start ≤ 2 ∧
          handleZoomIn (handleZoomIn^[n] w) = handleZoomIn^[n] w by
      exact h (z.endI - z.start).toNat z le_rfl
    intro m
    induction m with
    | zero =>
        intro w hw
        have hr : w.endI - w.start ≤ 2 := by omega
        exact ⟨0, by
          rw [Function.iterate_zero_apply]
          exact ⟨hr, handleZoomIn_of_small w hr⟩⟩
    | succ m ih =>
        intro w hw
        by_cases hr : w.endI - w.start ≤ 2
        · exact ⟨0, by
            rw [Function.iterate_zero_apply]
            exact ⟨hr, handleZoomIn_of_small w hr⟩⟩
        · push_neg at hr
          have hc := jsCeilDiv_four_bounds (w.endI - w.start)
          have hstep := handleZoomIn_of_big w hr
          have hsmaller : ((handleZoomIn w).endI - (handleZoomIn w).start).toNat ≤ m := by
            rw [hstep]
            dsimp only
            omega
          obtain ⟨n, hn1, hn2⟩ := ih (handleZoomIn w) hsmaller
          exact ⟨n + 1, by
            rw [Function.iterate_succ_apply]
            exact ⟨hn1, hn2⟩⟩

/-- Witness for `c1_zoom_roundtrip_amended` at the window `[1, 8]` on a
10-row dataset. -/
theorem c1_zoom_roundtrip_amended_witness :
    (handleZoomOut 10 (handleZoomIn ⟨1, 8⟩)).start ≤ 1 + 1 ∧
    8 - 1 ≤ (handleZoomOut 10 (handleZoomIn ⟨1, 8⟩)).endI :=
  c1_zoom_roundtrip_amended.1 10 ⟨1, 8⟩ (by decide) (by decide) (by decide)

/-! ### Claim C2 -/

/-- A prior state with a published dataset: the example rows uploaded
over the initial state (headers `["Year","Sales"]`, selection
`["Sales"]`, zoom `[0, 2]`). -/
def exPrior : AppState := uploadComplete initialState exRows

/-- Claim C2, counterexample: uploading a parse result with zero rows
over `exPrior` empties the dataset but RETAINS the prior headers,
selected columns and zoom window, refuting the claim that the entire
prior state is cleared. -/
theorem c2_upload_empty_counterexample :
    (uploadComplete exPrior []).data = [] ∧
    (uploadComplete exPrior []).headers = ["Year", "Sales"] ∧
    (uploadComplete exPrior []).selectedColumns = ["Sales"] ∧
    (uploadComplete exPrior []).zoomDomain = ⟨0, 2⟩ ∧
    ¬((uploadComplete exPrior []).headers = [] ∧
      (uploadComplete exPrior []).selectedColumns = []) := by
  decide

/-- Claim C2 (amended): when an upload's parse result yields zero rows,
ingestion does not crash and no rows are published (the dataset is
replaced by the empty row list), but the prior headers, selected columns
and zoom window are retained, not cleared. -/
theorem c2_upload_empty_amended (s : AppState) :
    (uploadComplete s []).data = [] ∧
    (uploadComplete s []).headers = s.headers ∧
    (uploadComplete s []).selectedColumns = s.selectedColumns ∧
    (uploadComplete s []).zoomDomain = s.zoomDomain :=
  ⟨rfl, rfl, rfl, rfl⟩

/-! ### Claim C9 -/

/-- Claim C9, counterexample: the window created for a one-row dataset
is `[0, 0]`, violating `start < end`; and the initial pre-upload window
is `{start: 0, end: 10}`, violating `end ≤ length − 1` for the empty
dataset. This refutes the claim that every held window satisfies the
invariant. -/
theorem c9_invariant_counterexample :
    (uploadComplete initialState [[("A", Value.vnum 1)]]).zoomDomain = ⟨0, 0⟩ ∧
    ¬ZoomInv 1 (uploadComplete initialState [[("A", Value.vnum 1)]]).zoomDomain ∧
    initialState.zoomDomain = ⟨0, 10⟩ ∧
    ¬ZoomInv 0 initialState.zoomDomain := by
  refine ⟨rfl, ?_, rfl, ?_⟩
  · intro h; exact absurd h.2.1 (by decide)
  · intro h; exact absurd h.2.2 (by decide)

/-- Claim C9 (amended): for datasets of at least two rows the invariant
`0 ≤ start < end ≤ length − 1` does hold of the window created at load
time, and it is preserved by zoom-in, zoom-out and reset; the one-row
load produces the degenerate window `[0, 0]`, and the pre-upload initial
window is the fixed `[0, 10]` (both outside the invariant, see the
counterexample). -/
theorem c9_zoom_invariant_amended :
    (∀ (s : AppState) (first : Row) (rest : List Row),
        2 ≤ (first :: rest).length →
        ZoomInv ((first :: rest).length : ℤ)
          (uploadComplete s (first :: rest)).zoomDomain) ∧
    (∀ (dataLen : ℤ) (z : Zoom), ZoomInv dataLen z →
        ZoomInv dataLen (handleZoomIn z)) ∧
    (∀ (dataLen : ℤ) (z : Zoom), ZoomInv dataLen z →
        ZoomInv dataLen (handleZoomOut dataLen z)) ∧
    (∀ dataLen : ℤ, 2 ≤ dataLen → ZoomInv dataLen (handleResetZoom dataLen)) := by
  refine ⟨?_, ?_, ?_, ?_⟩
  · intro s first rest hlen
    have hz : (uploadComplete s (first :: rest)).zoomDomain =
        ⟨0, (((first :: rest).map trimRow).length : ℤ) - 1⟩ := rfl
    rw [hz]
    simp only [List.length_map] at *
    exact ⟨le_refl 0, by simp only [List.length_cons] at *; omega,
      by simp only [List.length_cons] at *; omega⟩
  · intro dataLen z hz
    obtain ⟨h0, hlt, hle⟩ := hz
    by_cases hr : z.endI - z.start ≤ 2
    · rw [handleZoomIn_of_small z hr]; exact ⟨h0, hlt, hle⟩
    · push_neg at hr
      have hc := jsCeilDiv_four_bounds (z.endI - z.start)
      rw [handleZoomIn_of_big z hr]
      exact ⟨by dsimp only; omega, by dsimp only; omega, by dsimp only; omega⟩
  · intro dataLen z hz
    obtain ⟨h0, hlt, hle⟩ := hz
    have hc := jsCeilDiv_two_bounds (z.endI - z.start)
    unfold handleZoomOut
    exact ⟨by dsimp only; omega, by dsimp only; omega, by dsimp only; omega⟩
  · intro dataLen h
    exact ⟨le_refl 0, by unfold handleResetZoom; dsimp only; omega,
      by unfold handleResetZoom; dsimp only; omega⟩

/-- Witness for `c9_zoom_invariant_amended`: a two-row upload produces a
window satisfying the invariant, and reset on a 5-row dataset does too. -/
theorem c9_zoom_invariant_amended_witness :
    ZoomInv (([("A", Value.vnum 1)] :: [[("A", Value.vnum 2)]]).length : ℤ)
      (uploadComplete initialState
        ([("A", Value.vnum 1)] :: [[("A", Value.vnum 2)]])).zoomDomain :=
  c9_zoom_invariant_amended.1 initialState [("A", Value.vnum 1)]
    [[("A", Value.vnum 2)]] (by decide)

/-! ### Claim C4 -/

theorem sampleData_of_big {α : Type} [Inhabited α] (data : List α) (M : ℕ)
    (h : M < data.length) :
    sampleData data M =
      (if ((data.length + (data.length + M - 1) / M - 1) / ((data.length + M - 1) / M) - 1) *
            ((data.length + M - 1) / M) = data.length - 1 then
        (List.range ((data.length + (data.length + M - 1) / M - 1) / ((data.length + M - 1) / M))).map
          (fun j => data.getD (j * ((data.length + M - 1) / M)) default)
      else
        (List.range ((data.length + (data.length + M - 1) / M - 1) / ((data.length + M - 1) / M))).map
          (fun j => data.getD (j * ((data.length + M - 1) / M)) default) ++
          [data.getD (data.length - 1) default]) := by
  unfold sampleData
  rw [if_neg (by omega)]

/-- Claim C4: downsampling returns a sequence of length at most `M`
unchanged; past `M` it strides and force-includes the final row, so the
result's last element is the original's last element and the result has
at most `M + 1` elements. (`maxPoints = 0` is outside the claim: its
`ceil(length/maxPoints)` stride is not defined there.) -/
theorem c4_sampleData_contract {α : Type} [Inhabited α] (data : List α)
    (maxPoints : ℕ) (hM : 0 < maxPoints) :
    (data.length ≤ maxPoints → sampleData data maxPoints = data) ∧
    (maxPoints < data.length →
      (sampleData data maxPoints).getLast? = data.getLast? ∧
      (sampleData data maxPoints).length ≤ maxPoints + 1) := by
  constructor
  · intro h
    unfold sampleData
    rw [if_pos h]
  · intro h
    have hL1 : 1 ≤ data.length := by omega
    set L := data.length with hLdef
    set s := (L + maxPoints - 1) / maxPoints with hsdef
    -- the stride is positive
    have hs1 : 1 ≤ s := by
      rw [hsdef, Nat.le_div_iff_mul_le hM]
      omega
    -- `maxPoints * s ≥ L` (the stride covers the list in `≤ maxPoints` steps)
    have hcover : L ≤ maxPoints * s := by
      have hrw : L + maxPoints - 1 = (L - 1) + maxPoints := by omega
      have hdm := Nat.div_add_mod (L - 1) maxPoints
      have hmlt := Nat.mod_lt (L - 1) hM
      rw [hsdef, hrw, Nat.add_div_right _ hM, Nat.mul_add, Nat.mul_one]
      omega
    set count := (L + s - 1) / s with hcdef
    have hs0 : 0 < s := hs1
    have hcount1 : 1 ≤ count := by
      rw [hcdef, Nat.le_div_iff_mul_le hs0]
      omega
    have hcountM : count ≤ maxPoints := by
      rw [hcdef, Nat.div_le_iff_le_mul_add_pred hs0]
      calc L + s - 1 ≤ maxPoints * s + (s - 1) := by
            have := Nat.mul_comm maxPoints s
            omega
        _ = s * maxPoints + (s - 1) := by rw [Nat.mul_comm]
    -- the loop's last index stays in range
    have hlast_lt : (count - 1) * s ≤ L - 1 := by
      have hmul := Nat.div_mul_le_self (L + s - 1) s
      rw [Nat.sub_mul, Nat.one_mul]
      rw [hcdef]
      omega
    have hlen_sampled :
        ((List.range count).map (fun j => data.getD (j * s) default)).length = count := by
      rw [List.length_map, List.length_range]
    have hlast_sampled :
        ((List.range count).map (fun j => data.getD (j * s) default)).getLast? =
          some (data.getD ((count - 1) * s) default) := by
      rw [List.getLast?_eq_getElem?, hlen_sampled, List.getElem?_map,
        List.getElem?_range (by omega : count - 1 < count)]
      rfl
    have hdata_last : data.getLast? = some (data.getD (L - 1) default) := by
      rw [List.getLast?_eq_getElem?, List.getD_eq_getElem?_getD,
        ← hLdef, List.getElem?_eq_getElem (by omega : L - 1 < L)]
      rfl
    rw [sampleData_of_big data maxPoints h]
    by_cases hexact : (count - 1) * s = L - 1
    · rw [← hLdef, ← hsdef, ← hcdef, if_pos hexact]
      refine ⟨?_, ?_⟩
      · rw [hlast_sampled, hdata_last, hexact]
      · rw [hlen_sampled]
        omega
    · rw [← hLdef, ← hsdef, ← hcdef, if_neg hexact]
      refine ⟨?_, ?_⟩
      · rw [List.getLast?_concat, hdata_last]
      · rw [List.length_append, hlen_sampled]
        simp only [List.length_cons, List.length_nil]
        omega

/-- Witness for `c4_sampleData_contract`: sampling `[0,1,2,3,4]` down to
2 points gives `[0,3,4]` — last element kept, length `3 ≤ 2 + 1`. -/
theorem c4_sampleData_contract_witness :
    (sampleData [0, 1, 2, 3, 4] 2).getLast? = ([0, 1, 2, 3, 4] : List ℕ).getLast? ∧
    (sampleData [0, 1, 2, 3, 4] 2).length ≤ 2 + 1 :=
  (c4_sampleData_contract [0, 1, 2, 3, 4] 2 (by decide)).2 (by decide)

/-! ### Claims C5 and C10 -/

theorem foldl_min_le {α : Type} [LinearOrder α] (l : List α) (a : α) :
    l.foldl min a ≤ a ∧ ∀ x ∈ l, l.foldl min a ≤ x := by
  induction l generalizing a with
  | nil => simp
  | cons b t ih =>
      simp only [List.foldl_cons]
      obtain ⟨h1, h2⟩ := ih (min a b)
      refine ⟨le_trans h1 (min_le_left a b), ?_⟩
      intro x hx
      rcases List.mem_cons.mp hx with hxb | hxt
      · rw [hxb]; exact le_trans h1 (min_le_right a b)
      · exact h2 x hxt

theorem foldl_min_mem {α : Type} [LinearOrder α] (l : List α) (a : α) :
    l.foldl min a ∈ a :: l := by
  induction l generalizing a with
  | nil => simp
  | cons b t ih =>
      simp only [List.foldl_cons]
      have h := ih (min a b)
      rcases List.mem_cons.mp h with heq | hmem
      · rw [heq]
        rcases min_choice a b with hab | hab
        · rw [hab]; exact List.mem_cons_self a (b :: t)
        · rw [hab]; exact List.mem_cons_of_mem a (List.mem_cons_self b t)
      · exact List.mem_cons_of_mem a (List.mem_cons_of_mem b hmem)

theorem le_foldl_max {α : Type} [LinearOrder α] (l : List α) (a : α) :
    a ≤ l.foldl max a ∧ ∀ x ∈ l, x ≤ l.foldl max a := by
  induction l generalizing a with
  | nil => simp
  | cons b t ih =>
      simp only [List.foldl_cons]
      obtain ⟨h1, h2⟩ := ih (max a b)
      refine ⟨le_trans (le_max_left a b) h1, ?_⟩
      intro x hx
      rcases List.mem_cons.mp hx with hxb | hxt
      · rw [hxb]; exact le_trans (le_max_right a b) h1
      · exact h2 x hxt

theorem foldl_max_mem {α : Type} [LinearOrder α] (l : List α) (a : α) :
    l.foldl max a ∈ a :: l := by
  induction l generalizing a with
  | nil => simp
  | cons b t ih =>
      simp only [List.foldl_cons]
      have h := ih (max a b)
      rcases List.mem_cons.mp h with heq | hmem
      · rw [heq]
        rcases max_choice a b with hab | hab
        · rw [hab]; exact List.mem_cons_self a (b :: t)
        · rw [hab]; exact List.mem_cons_of_mem a (List.mem_cons_self b t)
      · exact List.mem_cons_of_mem a (List.mem_cons_of_mem b hmem)

/-- Claim C5: for a column over the visible slice, the Y-axis domain is
`[min − padding, max + padding]` with `padding = (max − min) * 0.1`,
where min and max range over the cells whose `Number` coercion is not
`NaN`; `[0, 100]` when no cell coerces; and on the example dataset the
`Sales` domain is `[84, 156]`. -/
theorem c5_getDataRange_contract :
    (∀ (data : List Row) (column : String),
        columnNumbers data column = [] → getDataRange data column = (0, 100)) ∧
    (∀ (data : List Row) (column : String), columnNumbers data column ≠ [] →
        ∃ mn mx, mn ∈ columnNumbers data column ∧ mx ∈ columnNumbers data column ∧
          (∀ v ∈ columnNumbers data column, mn ≤ v ∧ v ≤ mx) ∧
          getDataRange data column =
            (mn - (mx - mn) * (1/10), mx + (mx - mn) * (1/10))) ∧
    getDataRange exRows "Sales" = (84, 156) := by
  refine ⟨?_, ?_, ?_⟩
  · intro data column h
    simp only [getDataRange, h]
  · intro data column h
    rcases hcn : columnNumbers data column with _ | ⟨v, vs⟩
    · exact absurd hcn h
    · refine ⟨vs.foldl min v, vs.foldl max v, ?_, ?_, ?_, ?_⟩
      · exact foldl_min_mem vs v
      · exact foldl_max_mem vs v
      · intro x hx
        rcases List.mem_cons.mp hx with hxv | hxt
        · rw [hxv]
          exact ⟨(foldl_min_le vs v).1, (le_foldl_max vs v).1⟩
        · exact ⟨(foldl_min_le vs v).2 x hxt, (le_foldl_max vs v).2 x hxt⟩
      · simp only [getDataRange, hcn]
  · have hcn : columnNumbers exRows "Sales" = [100, 150, 90] := by decide
    simp only [getDataRange, hcn, List.foldl_cons, List.foldl_nil]
    norm_num [min_def, max_def, Prod.ext_iff]

/-- Witness for `c5_getDataRange_contract`: on the example dataset the
non-empty branch yields attained bounds and the padded domain. -/
theorem c5_getDataRange_contract_witness :
    ∃ mn mx, mn ∈ columnNumbers exRows "Sales" ∧ mx ∈ columnNumbers exRows "Sales" ∧
      (∀ v ∈ columnNumbers exRows "Sales", mn ≤ v ∧ v ≤ mx) ∧
      getDataRange exRows "Sales" =
        (mn - (mx - mn) * (1/10), mx + (mx - mn) * (1/10)) :=
  c5_getDataRange_contract.2.1 exRows "Sales" (by decide)

/-- Claim C10: in the axis-domain computation, a `null` cell and an
empty or whitespace-only string cell coerce to the number `0` and are
included in the min/max data (only `NaN` coercions are excluded), and a
single such cell pulls the computed domain minimum below 0: with
`Sales` cells `100` and `null`, the domain is `[-10, 110]`. -/
theorem c10_nullish_in_domain :
    jsNumber Value.vnull = some 0 ∧
    (∀ s : String, jsTrim s = "" → jsNumber (Value.vstr s) = some 0) ∧
    (∀ (pre post : List Row) (r : Row) (column : String) (v : Value),
        rowGet r column = some v → jsNumber v = some 0 →
        columnNumbers (pre ++ r :: post) column =
          columnNumbers pre column ++ 0 :: columnNumbers post column) ∧
    getDataRange [[("Sales", Value.vnum 100)], [("Sales", Value.vnull)]] "Sales" =
      (-10, 110) ∧
    ((-10 : ℚ) < 0) := by
  refine ⟨rfl, ?_, ?_, ?_, by norm_num⟩
  · intro s h
    simp only [jsNumber]
    rw [if_pos h]
  · intro pre post r column v h1 h2
    simp only [columnNumbers, List.filterMap_append, List.filterMap_cons, jsNumberOpt,
      h1, h2]
  · have hcn : columnNumbers [[("Sales", Value.vnum 100)], [("Sales", Value.vnull)]]
        "Sales" = [100, 0] := by decide
    simp only [getDataRange, hcn, List.foldl_cons, List.foldl_nil]
    norm_num [min_def, max_def, Prod.ext_iff]

/-- Witness for `c10_nullish_in_domain`: a whitespace-only cell coerces
to `0`, and a `null` cell is included as `0` between its neighbours. -/
theorem c10_nullish_in_domain_witness :
    jsNumber (Value.vstr "  ") = some 0 ∧
    columnNumbers ([[("Sales", Value.vnum 100)]] ++ [("Sales", Value.vnull)] ::
        [[("Sales", Value.vnum 7)]]) "Sales" =
      columnNumbers [[("Sales", Value.vnum 100)]] "Sales" ++
        0 :: columnNumbers [[("Sales", Value.vnum 7)]] "Sales" :=
  ⟨c10_nullish_in_domain.2.1 "  " (by decide),
   c10_nullish_in_domain.2.2.1 [[("Sales", Value.vnum 100)]]
     [[("Sales", Value.vnum 7)]] [("Sales", Value.vnull)] "Sales" Value.vnull
     (by decide) (by decide)⟩

/-! ### Claim C3 -/

/-- The spec's pie example: selected columns `A` (10 and −10, summing to
0) and `B` (15 and 25, summing to 40). -/
def exPie : List Row :=
  [[("X", Value.vstr "r1"), ("A", Value.vnum 10), ("B", Value.vnum 15)],
   [("X", Value.vstr "r2"), ("A", Value.vnum (-10)), ("B", Value.vnum 25)]]

/-- Every datum surviving the pie filter carries its column's sum and is
strictly positive. -/
theorem mem_pieData_value (chartData : List Row) (cols : List String)
    (d : PieDatum) (hd : d ∈ pieData chartData cols) :
    d.value = pieValueSum chartData d.name ∧ 0 < d.value := by
  simp only [pieData, List.mem_filter] at hd
  obtain ⟨hmap, hpos⟩ := hd
  rcases List.mem_map.mp hmap with ⟨p, hp, hfp⟩
  subst hfp
  exact ⟨rfl, of_decide_eq_true hpos⟩

/-- Claim C3: in pie mode each selected column's value is the sum of its
numeric cells over the rows in view (non-numeric contributing 0);
exactly the columns with strictly positive totals survive; the
"no plottable numeric data" message is signalled exactly when no column
survives; and on the example (`A` summing to 0, `B` to 40) the pie data
is just `B` with value 40. -/
theorem c3_pie_aggregation :
    (∀ (chartData : List Row) (cols : List String) (d : PieDatum),
        d ∈ pieData chartData cols →
        d.value = pieValueSum chartData d.name ∧ 0 < d.value) ∧
    (∀ (chartData : List Row) (cols : List String) (c : String),
        c ∈ cols → 0 < pieValueSum chartData c →
        ∃ d ∈ pieData chartData cols, d.name = c ∧
          d.value = pieValueSum chartData c) ∧
    (∀ (chartData : List Row) (cols : List String),
        pieNoData chartData cols = true ↔ pieData chartData cols = []) ∧
    pieData exPie ["A", "B"] = [{ name := "B", value := 40, color := "#82ca9d" }] := by
  refine ⟨mem_pieData_value, ?_, ?_, ?_⟩
  · intro chartData cols c hc hpos
    have hc2 : c ∈ cols.enum.map Prod.snd := by
      rw [List.enum_map_snd]; exact hc
    rcases List.mem_map.mp hc2 with ⟨p, hp, hsnd⟩
    refine ⟨{ name := p.2
              value := pieValueSum chartData p.2
              color := COLORS.getD (p.1 % COLORS.length) "" }, ?_, ?_, ?_⟩
    · simp only [pieData, List.mem_filter]
      refine ⟨List.mem_map_of_mem _ hp, ?_⟩
      rw [hsnd]
      exact decide_eq_true hpos
    · exact hsnd
    · rw [hsnd]
  · intro chartData cols
    constructor
    · intro h
      rcases Bool.or_eq_true _ _ |>.mp h with hemp | hall
      · exact List.isEmpty_iff.mp hemp
      · rcases hl : pieData chartData cols with _ | ⟨d, ds⟩
        · rfl
        · have hd : d ∈ pieData chartData cols := by
            rw [hl]; exact List.mem_cons_self d ds
          have hzero : d.value = 0 := by
            have := List.all_eq_true.mp hall d hd
            exact eq_of_beq this
          have hpos := (mem_pieData_value chartData cols d hd).2
          rw [hzero] at hpos
          exact absurd hpos (lt_irrefl 0)
    · intro h
      unfold pieNoData
      rw [h]
      rfl
  · have h1 : rowGet [("X", Value.vstr "r1"), ("A", Value.vnum 10),
        ("B", Value.vnum 15)] "A" = some (Value.vnum 10) := by decide
    have h2 : rowGet [("X", Value.vstr "r2"), ("A", Value.vnum (-10)),
        ("B", Value.vnum 25)] "A" = some (Value.vnum (-10)) := by decide
    have h3 : rowGet [("X", Value.vstr "r1"), ("A", Value.vnum 10),
        ("B", Value.vnum 15)] "B" = some (Value.vnum 15) := by decide
    have h4 : rowGet [("X", Value.vstr "r2"), ("A", Value.vnum (-10)),
        ("B", Value.vnum 25)] "B" = some (Value.vnum 25) := by decide
    have hA : pieValueSum exPie "A" = 0 := by
      simp only [pieValueSum, exPie, List.foldl_cons, List.foldl_nil, h1, h2,
        jsNumberOpt, jsNumber, Option.getD_some]
      norm_num
    have hB : pieValueSum exPie "B" = 40 := by
      simp only [pieValueSum, exPie, List.foldl_cons, List.foldl_nil, h3, h4,
        jsNumberOpt, jsNumber, Option.getD_some]
      norm_num
    simp only [pieData, List.enum, List.enumFrom, List.map_cons, List.map_nil, hA, hB,
      COLORS, List.filter, List.getD]
    norm_num

/-- Witness for `c3_pie_aggregation`: the surviving example datum `B`
carries the column sum and is strictly positive. -/
theorem c3_pie_aggregation_witness :
    ({ name := "B", value := 40, color := "#82ca9d" } : PieDatum).value =
      pieValueSum exPie ({ name := "B", value := 40, color := "#82ca9d" } : PieDatum).name ∧
    (0:ℚ) < ({ name := "B", value := 40, color := "#82ca9d" } : PieDatum).value :=
  c3_pie_aggregation.1 exPie ["A", "B"] _
    (by rw [c3_pie_aggregation.2.2.2]; exact List.mem_cons_self _ _)

/-! ### Claim C6 -/

/-- Claim C6, counterexample: the tick formatter's guard `if (!value)`
is a truthiness test, so the number `0` (and the empty string) render as
the em-dash placeholder, not as their string forms — refuting the claim
that the placeholder appears exactly for null/undefined and that 0
renders as "0". -/
theorem c6_tick_counterexample :
    formatXAxisTick (Value.vnum 0) = "—" ∧
    jsToString (Value.vnum 0) = "0" ∧
    formatXAxisTick (Value.vstr "") = "—" ∧
    ("—" : String) ≠ "0" := by
  decide

/-- Claim C6 (amended): the tick formatter renders the em-dash for every
falsy input (null/undefined, the number 0, the empty string); for other
inputs that do not parse as dates, a string longer than 8 characters
renders as its first 6 characters plus an ellipsis marker, a shorter
string renders as itself, and a non-zero number renders as its string
form. -/
theorem c6_tick_formatter_amended :
    (∀ v : Value, jsFalsy v = true → formatXAxisTick v = "—") ∧
    (∀ s : String, jsFalsy (Value.vstr s) = false → dateParse s = none →
        formatXAxisTick (Value.vstr s) =
          (if 8 < s.length then String.mk (s.data.take 6) ++ "..." else s)) ∧
    (∀ q : ℚ, jsFalsy (Value.vnum q) = false →
        formatXAxisTick (Value.vnum q) = jsToString (Value.vnum q)) := by
  refine ⟨?_, ?_, ?_⟩
  · intro v h
    unfold formatXAxisTick
    rw [if_pos h]
  · intro s h hd
    simp only [formatXAxisTick, h, hd, Bool.false_eq_true, if_false]
  · intro q h
    simp only [formatXAxisTick, h, Bool.false_eq_true, if_false]

/-- Witness for `c6_tick_formatter_amended`: a 10-character non-date
string truncates to 6 characters plus the ellipsis marker. -/
theorem c6_tick_formatter_amended_witness :
    formatXAxisTick (Value.vstr "abcdefghij") =
      (if 8 < ("abcdefghij" : String).length then
        String.mk (("abcdefghij" : String).data.take 6) ++ "..."
      else "abcdefghij") :=
  c6_tick_formatter_amended.2.1 "abcdefghij" (by decide) (by decide)

/-! ### Claim C7 -/

/-- Claim C7: on the example dataset the Year column is NOT labelled
"Year (Sequence: +1)": every 4-digit year string is a valid ISO 8601
date for `Date.parse`, so the ≥80% date check fires first and the code
produces "Year (Timeline)". The code's own comment ("Check if it's a
sequence (like years, months, etc.)") and the spec's example show the
sequence classification was the intent, so this is a code bug. -/
theorem c7_year_column_is_timeline :
    analyzeXAxisColumn exRows ["Year", "Sales"] = "Year (Timeline)" ∧
    "Year (Timeline)" ≠ "Year (Sequence: +1)" := by
  constructor
  · have hx : xValues exRows "Year" =
        [Value.vstr "2020", Value.vstr "2021", Value.vstr "2022"] := by decide
    have h0 : (exRows = []) = False := by
      apply eq_false; decide
    have hd : (List.filter isDateValue
        [Value.vstr "2020", Value.vstr "2021", Value.vstr "2022"]).length = 3 := by
      decide
    norm_num [analyzeXAxisColumn, hx, h0, hd]
    rfl
  · decide

/-! ### Claim C8 -/

/-- Five rows, four of which are ISO date strings: the date share is
exactly 80%. -/
def exDates80 : List Row :=
  [[("D", Value.vstr "2020-01-01")],
   [("D", Value.vstr "2020-01-02")],
   [("D", Value.vstr "2020-01-03")],
   [("D", Value.vstr "2020-01-04")],
   [("D", Value.vstr "apple")]]

/-- Three rows, all ISO date strings. -/
def exDatesAll : List Row :=
  [[("D", Value.vstr "2020-01-01")],
   [("D", Value.vstr "2020-01-02")],
   [("D", Value.vstr "2020-01-03")]]

/-- Claim C8, counterexample: with exactly 80% of the non-null values
parsing as dates (4 of 5), the comparison `dateValues.length >
values.length * 0.8` is `4 > 4`, which fails, and the column is NOT
classified as a timeline (it falls through to the generic-text label) —
refuting the boundary-included "≥ 80%" reading. -/
theorem c8_boundary_counterexample :
    (xValues exDates80 "D").length = 5 ∧
    ((xValues exDates80 "D").filter isDateValue).length = 4 ∧
    ((4 : ℚ) ≥ (5 : ℚ) * (8/10)) ∧
    analyzeXAxisColumn exDates80 ["D"] = "D (Text)" ∧
    "D (Text)" ≠ "D (Timeline)" := by
  refine ⟨by decide, by decide, by norm_num, ?_, by decide⟩
  have hx : xValues exDates80 "D" =
      [Value.vstr "2020-01-01", Value.vstr "2020-01-02", Value.vstr "2020-01-03",
       Value.vstr "2020-01-04", Value.vstr "apple"] := by decide
  have h0 : (exDates80 = []) = False := by
    apply eq_false; decide
  have hd : (List.filter isDateValue
      [Value.vstr "2020-01-01", Value.vstr "2020-01-02", Value.vstr "2020-01-03",
       Value.vstr "2020-01-04", Value.vstr "apple"]).length = 4 := by decide
  have hn : (List.filter (fun v => (jsNumber v).isSome)
      [Value.vstr "2020-01-01", Value.vstr "2020-01-02", Value.vstr "2020-01-03",
       Value.vstr "2020-01-04", Value.vstr "apple"]).length = 0 := by decide
  have hu : ([Value.vstr "2020-01-01", Value.vstr "2020-01-02", Value.vstr "2020-01-03",
      Value.vstr "2020-01-04", Value.vstr "apple"].dedup).length = 5 := by decide
  norm_num [analyzeXAxisColumn, hx, h0, hd, hn, hu]
  rfl

/-- Claim C8 (amended): whenever STRICTLY more than 80% of the X
column's non-null values parse as dates, the column is classified as a
timeline and the label is annotated "(Timeline)". -/
theorem c8_timeline_amended (data : List Row) (h : String) (rest : List String)
    (hdata : data ≠ []) (hx : xValues data h ≠ [])
    (hratio : (((xValues data h).filter isDateValue).length : ℚ) >
      ((xValues data h).length : ℚ) * (8/10)) :
    analyzeXAxisColumn data (h :: rest) = h ++ " (Timeline)" := by
  have h0 : ¬(data.length = 0 ∨ (h :: rest).length = 0) := by
    simp [List.length_eq_zero, hdata]
  have h1 : ¬(xValues data h).length = 0 := by
    simp [List.length_eq_zero, hx]
  simp only [analyzeXAxisColumn, List.headD_cons]
  rw [if_neg h0, if_neg h1, if_pos hratio]

/-- Witness for `c8_timeline_amended`: a column whose values are all ISO
date strings (100% > 80%) is labelled "(Timeline)". -/
theorem c8_timeline_amended_witness :
    analyzeXAxisColumn exDatesAll ["D"] = "D" ++ " (Timeline)" :=
  c8_timeline_amended exDatesAll "D" [] (by decide) (by decide)
    (by
      have ha : ((xValues exDatesAll "D").filter isDateValue).length = 3 := by decide
      have hb : (xValues exDatesAll "D").length = 3 := by decide
      rw [ha, hb]
      norm_num)
